import Mathlib

/-!
Verification of the LockIn-Bot streak / voice-activity subsystem.

Shallow embedding conventions:
* Instants are integers counting seconds; Manila calendar dates are integers
  counting days.  The Go code normalises every stored date to midnight in the
  Manila timezone (`GetTodayManilaDate`, `ConvertToManilaDate`), so two stored
  dates are `IsSameManilaDate` exactly when their day ordinals are equal.
* `sql.NullTime` / `sql.NullInt32` become `Option Int`; the Go zero value of an
  invalid `NullInt32` is `0`, which we mirror with `Option.getD 0` wherever the
  code reads `.Int32` without checking `.Valid`.
* Database errors that the code branches on are injected through explicit
  failure flags; `sql.ErrNoRows` is represented by `Option.none` results.
-/

namespace LockIn

/-- Notifications emitted by the streak service (embed constructors in
`timezone_helpers.go`); only the payloads the logic depends on are kept. -/
inductive Notif where
  | streakStarted (count : Int)
  | streakContinued (count : Int)
  | streakEnded (priorCount : Int)
  | activityCompletedWithStreak (minutes count : Int)
  | basicActivityCompleted (minutes : Int)
  deriving DecidableEq, Repr

/-- A row of the `user_streaks` table (queries.sql, `GetUserStreak`).
Dates are Manila day ordinals. -/
structure StreakRecord where
  userId : String
  guildId : String
  currentStreakCount : Int
  maxStreakCount : Int
  lastActivityDate : Option Int
  streakEvaluatedDate : Option Int
  dailyActivityMinutes : Option Int
  activityStartTime : Option Int
  streakIncrementedToday : Bool
  warningNotifiedAt : Option Int
  deriving DecidableEq, Repr

/-- `minimumActivityMinutes` constant from `timezone_helpers.go`. -/
def minimumActivityMinutes : Int := 1

/-- `IsSameManilaDate` on stored (midnight-normalised) dates: two Manila
midnights are `time.Equal` exactly when their day ordinals agree. -/
def isSameManilaDate (d1 d2 : Int) : Bool := d1 == d2

/-- `UpdateStreakImmediately` (queries.sql): sets the counts, takes
`GREATEST(max_streak_count, $4)`, and stamps `streak_incremented_today`. -/
def updateStreakImmediately (r : StreakRecord) (newCur newMax : Int) : StreakRecord :=
  { r with
    currentStreakCount := newCur
    maxStreakCount := max r.maxStreakCount newMax
    streakIncrementedToday := true }

/-- `processImmediateStreakUpdate` (timezone_helpers.go): fetches the current
record, increments the streak (0 becomes 1, otherwise +1), raises the max, and
sends the completion embed with the new count. -/
def processImmediateStreakUpdate (r : StreakRecord) (minutes : Int) :
    StreakRecord × Notif :=
  let newStreak : Int := if r.currentStreakCount = 0 then 1 else r.currentStreakCount + 1
  let newMaxStreak : Int := if newStreak > r.maxStreakCount then newStreak else r.maxStreakCount
  (updateStreakImmediately r newStreak newMaxStreak,
    Notif.activityCompletedWithStreak minutes newStreak)

/-- `HandleVoiceLeave` (timezone_helpers.go): the Trigger-A accumulation step.
Arguments: today's Manila date, the current instant, the bot's in-memory
session start time (`GetSessionStartTime`), and the stored streak record
(`none` models `sql.ErrNoRows`).  Returns the resulting record and the
notification sent, if any. -/
def handleVoiceLeave (today now : Int) (sessionStart : Option Int)
    (rec : Option StreakRecord) : Option StreakRecord × Option Notif :=
  match sessionStart with
  | none => (rec, none)
  | some startTime =>
    let sessionMinutes : Int := Int.tdiv (now - startTime) 60
    if sessionMinutes < 1 then (rec, none)
    else
      match rec with
      | none => (none, none)
      | some streak =>
        let currentMinutes : Int := streak.dailyActivityMinutes.getD 0
        if streak.lastActivityDate.isSome ∧
            isSameManilaDate (streak.lastActivityDate.getD 0) today then
          let newTotalMinutes : Int := currentMinutes + sessionMinutes
          let streak1 := { streak with dailyActivityMinutes := some newTotalMinutes }
          if currentMinutes < minimumActivityMinutes ∧
              newTotalMinutes ≥ minimumActivityMinutes then
            if streak.streakIncrementedToday then (some streak1, none)
            else
              let (streak2, notif) := processImmediateStreakUpdate streak1 newTotalMinutes
              (some streak2, some notif)
          else (some streak1, none)
        else (some streak, none)

/-- `UpdateUserStreakAfterEvaluation` (queries.sql): writes the counts with
`GREATEST(max_streak_count, $4)` and stamps `streak_evaluated_date`. -/
def updateUserStreakAfterEvaluation (r : StreakRecord) (newCur newMax today : Int) :
    StreakRecord :=
  { r with
    currentStreakCount := newCur
    maxStreakCount := max r.maxStreakCount newMax
    streakEvaluatedDate := some today }

/-- `hasActivityToday` test from `evaluateUserStreakForToday`
(timezone_helpers.go): a valid `last_activity_date` equal to today and a valid
`daily_activity_minutes` at least the minimum. -/
def hasActivityToday (today : Int) (r : StreakRecord) : Bool :=
  r.lastActivityDate.isSome &&
    isSameManilaDate (r.lastActivityDate.getD 0) today &&
    r.dailyActivityMinutes.isSome &&
    (r.dailyActivityMinutes.getD 0 ≥ minimumActivityMinutes)

/-- `markUserEvaluated` (timezone_helpers.go): re-writes the current counts
unchanged, stamping `streak_evaluated_date = today`. -/
def markUserEvaluated (today : Int) (r : StreakRecord) : StreakRecord :=
  updateUserStreakAfterEvaluation r r.currentStreakCount r.maxStreakCount today

/-- `evaluateUserStreakForToday` (timezone_helpers.go): the Trigger-B daily
state machine for one user, returning the updated record and the notification
sent, if any. -/
def evaluateUserStreakForToday (today : Int) (r : StreakRecord) :
    StreakRecord × Option Notif :=
  if hasActivityToday today r then
    if r.currentStreakCount = 0 then
      let newStreakCount : Int := 1
      let newMaxStreak : Int :=
        if newStreakCount > r.maxStreakCount then newStreakCount else r.maxStreakCount
      (updateUserStreakAfterEvaluation r newStreakCount newMaxStreak today,
        some (Notif.streakStarted newStreakCount))
    else
      let newStreakCount : Int := r.currentStreakCount + 1
      let newMaxStreak : Int :=
        if newStreakCount > r.maxStreakCount then newStreakCount else r.maxStreakCount
      (updateUserStreakAfterEvaluation r newStreakCount newMaxStreak today,
        some (Notif.streakContinued newStreakCount))
  else
    if r.currentStreakCount > 0 then
      let newStreakCount : Int := 0
      let newMaxStreak : Int :=
        if newStreakCount > r.maxStreakCount then newStreakCount else r.maxStreakCount
      (updateUserStreakAfterEvaluation r newStreakCount newMaxStreak today,
        some (Notif.streakEnded r.currentStreakCount))
    else
      (markUserEvaluated today r, none)

/-- `GetUsersForDailyEvaluation` selection predicate (queries.sql):
`streak_evaluated_date IS NULL OR streak_evaluated_date < today`. -/
def needsDailyEvaluation (today : Int) (r : StreakRecord) : Bool :=
  match r.streakEvaluatedDate with
  | none => true
  | some d => d < today

/-- One row's update under `ResetAllStreakDailyFlags` (queries.sql): clears
`streak_incremented_today`. -/
def clearDailyFlag (r : StreakRecord) : StreakRecord :=
  { r with streakIncrementedToday := false }

/-- `ResetAllStreakDailyFlags` (queries.sql): clears
`streak_incremented_today` on every row. -/
def resetAllStreakDailyFlags (db : List StreakRecord) : List StreakRecord :=
  db.map clearDailyFlag

/-- One row's update under the daily batch: evaluated only when selected by
`GetUsersForDailyEvaluation`. -/
def dailyEvalRow (today : Int) (r : StreakRecord) : StreakRecord :=
  if needsDailyEvaluation today r then (evaluateUserStreakForToday today r).1 else r

/-- One row's notification under the daily batch. -/
def dailyEvalRowNotif (today : Int) (r : StreakRecord) : Option Notif :=
  if needsDailyEvaluation today r then (evaluateUserStreakForToday today r).2 else none

/-- `EvaluateAllUserStreaks` (timezone_helpers.go): reset the daily flags,
then evaluate every user whose `streak_evaluated_date` is null or before
today.  Returns the updated table and the notifications sent. -/
def evaluateAllUserStreaks (today : Int) (db : List StreakRecord) :
    List StreakRecord × List Notif :=
  let db1 := resetAllStreakDailyFlags db
  (db1.map (dailyEvalRow today), db1.filterMap (dailyEvalRowNotif today))

/-- `ResetUserStreakCount` (queries.sql): zeroes the current streak only. -/
def resetUserStreakCount (r : StreakRecord) : StreakRecord :=
  { r with currentStreakCount := 0 }

/-- `UpdateDailyActivityMinutes` (queries.sql): overwrites
`daily_activity_minutes` only. -/
def updateDailyActivityMinutes (r : StreakRecord) (newTotal : Int) : StreakRecord :=
  { r with dailyActivityMinutes := some newTotal }

/-- `StartDailyActivity` (queries.sql): upsert initialising today's activity.
The `DO UPDATE` branch uses SQL `user_streaks.last_activity_date != $3`, which
is not-true when the stored date is NULL, so a NULL stored date keeps every
`CASE` in its `ELSE` arm. -/
def startDailyActivity (u g : String) (date startInstant : Int) :
    Option StreakRecord → Option StreakRecord
  | none => some
      { userId := u, guildId := g, currentStreakCount := 0, maxStreakCount := 0,
        lastActivityDate := some date, streakEvaluatedDate := none,
        dailyActivityMinutes := some 0, activityStartTime := some startInstant,
        streakIncrementedToday := false, warningNotifiedAt := none }
  | some r =>
    let dateChanged : Bool :=
      match r.lastActivityDate with
      | none => false
      | some d => decide (d ≠ date)
    some { r with
      lastActivityDate := if dateChanged then some date else r.lastActivityDate,
      dailyActivityMinutes := if dateChanged then some 0 else r.dailyActivityMinutes,
      activityStartTime :=
        if dateChanged then some startInstant
        else if r.activityStartTime = none then some startInstant
        else r.activityStartTime,
      streakIncrementedToday := if dateChanged then false else r.streakIncrementedToday }

/-- The write operations that touch a `user_streaks` row: join initialisation,
minute accumulation, the immediate streak update, the daily batch evaluation,
and the streak reset. -/
inductive StreakOp where
  | startDaily (u g : String) (date startInstant : Int)
  | updateMinutes (newTotal : Int)
  | immediate (minutes : Int)
  | dailyEval (today : Int)
  | reset
  deriving DecidableEq, Repr

/-- Apply one write operation to an optional stored row (`none` = row absent;
the UPDATE queries are no-ops on an absent row, the upsert inserts). -/
def applyStreakOp (op : StreakOp) (s : Option StreakRecord) : Option StreakRecord :=
  match op, s with
  | .startDaily u g date t, s => startDailyActivity u g date t s
  | .updateMinutes v, s => s.map fun r => updateDailyActivityMinutes r v
  | .immediate m, s => s.map fun r => (processImmediateStreakUpdate r m).1
  | .dailyEval today, s => s.map fun r => (evaluateUserStreakForToday today r).1
  | .reset, s => s.map resetUserStreakCount

/-- Apply a sequence of write operations in order. -/
def applyStreakOps (ops : List StreakOp) (s : Option StreakRecord) : Option StreakRecord :=
  ops.foldl (fun acc op => applyStreakOp op acc) s

/-- Row invariant: a present row has a non-negative current streak bounded by
the max streak. -/
def StreakInv : Option StreakRecord → Prop
  | none => True
  | some r => 0 ≤ r.currentStreakCount ∧ r.currentStreakCount ≤ r.maxStreakCount

/-- The max streak stored in an optional row (0 when absent). -/
def maxOf : Option StreakRecord → Int
  | none => 0
  | some r => r.maxStreakCount

/-! ### Voice event reconciler (src/unnamed/part_008, the live `internal/bot`) -/

/-- Manila is UTC+8 (`time.FixedZone("Manila", 8*60*60)` fallback;
Asia/Manila has the same offset). -/
def manilaOffsetSeconds : Int := 8 * 60 * 60

/-- `ConvertToManilaDate`: day ordinal of an instant in Manila time. -/
def manilaDate (t : Int) : Int := Int.fdiv (t + manilaOffsetSeconds) 86400

/-- A row of the `study_sessions` table. -/
structure DBSession where
  sessionId : Nat
  userId : String
  startTime : Int
  endTime : Option Int
  durationMs : Option Int
  deriving DecidableEq, Repr

/-- Dedupe keys built in `isDuplicateVoiceEvent` (format strings
`"user:join:channel:guild"`, `"user:anyjoin:guild"`, `"user:leave:channel:guild"`). -/
inductive DedupeKey where
  | joinKey (userId channelId guildId : String)
  | anyJoinKey (userId guildId : String)
  | leaveKey (userId channelId guildId : String)
  deriving DecidableEq, Repr

/-- A gateway voice-state update (`discordgo.VoiceStateUpdate`): `before` is
the previous channel (`none` models a nil `BeforeUpdate`); `channelId` is the
new channel, with `""` meaning the user is in no voice channel. -/
structure VoiceEvent where
  userId : String
  guildId : String
  before : Option String
  channelId : String
  deriving DecidableEq, Repr

/-- Injected failures for the study-session store calls. -/
structure DBFaults where
  getActiveFails : Bool
  endFails : Bool
  createFails : Bool
  statsFails : Bool
  deriving DecidableEq, Repr

/-- No injected failures. -/
def noFaults : DBFaults := ⟨false, false, false, false⟩

/-- The bot's state: in-memory session map, dedupe map, the study-session and
stats tables, the streak table, and the configured tracked-channel set (both
the bot and the streak service copy the same configured set). -/
structure BotState where
  activeSessions : List (String × Int)
  lastVoiceEvent : List (DedupeKey × Int)
  dbSessions : List DBSession
  userStats : List (String × Int)
  streaks : List StreakRecord
  tracked : List String
  nextSessionId : Nat
  notifs : List Notif
  deriving Repr

/-- Association-list lookup (Go map read). -/
def alookup {α β : Type} [DecidableEq α] : List (α × β) → α → Option β
  | [], _ => none
  | (k, v) :: rest, a => if k = a then some v else alookup rest a

/-- Association-list key removal (Go map `delete`). -/
def aerase {α β : Type} [DecidableEq α] (l : List (α × β)) (a : α) : List (α × β) :=
  l.filter fun p => decide (p.1 ≠ a)

/-- Association-list write (Go map assignment). -/
def ainsert {α β : Type} [DecidableEq α] (l : List (α × β)) (a : α) (b : β) :
    List (α × β) :=
  (a, b) :: aerase l a

/-- Fresh bot state with a configured tracked-channel set (`bot.New`). -/
def initBotState (tracked : List String) : BotState :=
  ⟨[], [], [], [], [], tracked, 1, []⟩

/-- `GetActiveStudySession` (queries.sql): the first open session of a user
(`none` models `sql.ErrNoRows`). -/
def getActiveStudySession (st : BotState) (u : String) : Option DBSession :=
  st.dbSessions.find? fun s => s.userId == u && s.endTime == none

/-- The row update of `EndStudySession`: stamps the end time and
`duration_ms = EXTRACT(EPOCH FROM (end - start)) * 1000`. -/
def endStudySessionRow (s : DBSession) (now : Int) : DBSession :=
  { s with endTime := some now, durationMs := some ((now - s.startTime) * 1000) }

/-- The per-row effect of `EndStudySession`'s UPDATE: rows matching the id
and still open are stamped, others are untouched. -/
def closeSessionRow (sid : Nat) (now : Int) (t : DBSession) : DBSession :=
  if t.sessionId == sid && t.endTime == none then endStudySessionRow t now else t

/-- `EndStudySession` (queries.sql): ends the still-open row with this id and
returns it (`none` models `sql.ErrNoRows`, e.g. the row was already ended). -/
def endStudySession (st : BotState) (sid : Nat) (now : Int) :
    Option (BotState × DBSession) :=
  match st.dbSessions.find? (fun s => s.sessionId == sid && s.endTime == none) with
  | none => none
  | some s =>
    some ({ st with dbSessions := st.dbSessions.map (closeSessionRow sid now) },
          endStudySessionRow s now)

/-- `CreateStudySession` (queries.sql): inserts a fresh open session. -/
def createStudySession (st : BotState) (u : String) (now : Int) :
    BotState × DBSession :=
  let s : DBSession := ⟨st.nextSessionId, u, now, none, none⟩
  ({ st with dbSessions := st.dbSessions ++ [s], nextSessionId := st.nextSessionId + 1 }, s)

/-- The upsert on the stats table performed by `CreateOrUpdateUserStats`. -/
def statsUpsert (l : List (String × Int)) (u : String) (ms : Int) :
    List (String × Int) :=
  match alookup l u with
  | none => ainsert l u ms
  | some t => ainsert l u (t + ms)

/-- `CreateOrUpdateUserStats` (queries.sql): upsert adding `ms` to the user's
totals (only the total is tracked here). -/
def addUserStats (st : BotState) (u : String) (ms : Int) : BotState :=
  { st with userStats := statsUpsert st.userStats u ms }

/-- `GetUserStreak` by key on the streak table. -/
def getUserStreak (st : BotState) (u g : String) : Option StreakRecord :=
  st.streaks.find? fun r => r.userId == u && r.guildId == g

/-- Overwrite the keyed streak row (UPDATE: no-op when the row is absent). -/
def setUserStreak (st : BotState) (u g : String) (r : StreakRecord) : BotState :=
  { st with streaks := st.streaks.map fun t =>
      if t.userId == u && t.guildId == g then r else t }

/-- `HasActivityForDate` (queries.sql): a keyed row exists with
`last_activity_date = today` and `daily_activity_minutes >= minimum` (SQL
comparisons with NULL are not-true). -/
def hasActivityForDate (st : BotState) (u g : String) (today : Int) : Bool :=
  st.streaks.any fun r =>
    r.userId == u && r.guildId == g && r.lastActivityDate == some today &&
      (match r.dailyActivityMinutes with
       | none => false
       | some m => decide (m ≥ minimumActivityMinutes))

/-- `StartDailyActivity` as a keyed upsert on the streak table. -/
def upsertDailyActivity (st : BotState) (u g : String) (date startInstant : Int) :
    BotState :=
  match getUserStreak st u g with
  | none =>
    match startDailyActivity u g date startInstant none with
    | some r => { st with streaks := st.streaks ++ [r] }
    | none => st
  | some r0 =>
    match startDailyActivity u g date startInstant (some r0) with
    | some r => setUserStreak st u g r
    | none => st

/-- `StreakService.HandleVoiceJoin` (timezone_helpers.go): ignore empty or
untracked channels; skip users already done for today; otherwise initialise
today's activity record. -/
def serviceHandleVoiceJoin (st : BotState) (u g ch : String) (now : Int) : BotState :=
  if ch == "" then st
  else if !(st.tracked.contains ch) then st
  else
    let todayDate := manilaDate now
    if hasActivityForDate st u g todayDate then st
    else upsertDailyActivity st u g todayDate now

/-- `StreakService.HandleVoiceLeave` wired to the bot state: reads the bot's
in-memory session start (`GetSessionStartTime`) and the keyed streak row, then
applies the Trigger-A accumulation step `handleVoiceLeave`. -/
def serviceHandleVoiceLeave (st : BotState) (u g : String) (now : Int) : BotState :=
  let today := manilaDate now
  let res := handleVoiceLeave today now (alookup st.activeSessions u) (getUserStreak st u g)
  let st1 :=
    match res.1 with
    | some r => setUserStreak st u g r
    | none => st
  match res.2 with
  | some n => { st1 with notifs := st1.notifs ++ [n] }
  | none => st1

/-- The join-classification used both by the dedupe and the handler:
`v.ChannelID != "" && (v.BeforeUpdate == nil || v.BeforeUpdate.ChannelID != v.ChannelID)`. -/
def isJoinEvent (v : VoiceEvent) : Bool :=
  v.channelId != "" &&
    (match v.before with
     | none => true
     | some b => b != v.channelId)

/-- The leave-classification:
`v.BeforeUpdate != nil && v.BeforeUpdate.ChannelID != "" && (v.ChannelID == "" || v.ChannelID != v.BeforeUpdate.ChannelID)`. -/
def isLeaveEvent (v : VoiceEvent) : Bool :=
  (match v.before with
   | none => false
   | some b => b != "") &&
    (v.channelId == "" ||
      (match v.before with
       | none => true
       | some b => v.channelId != b))

/-- Dedupe window (`dedupeWindow = 3 * time.Second`). -/
def dedupeWindow : Int := 3

/-- Dedupe eviction threshold (`cleanupThreshold = 15 * time.Second`). -/
def dedupeCleanupThreshold : Int := 15

/-- The dedupe keys applicable to an event (`isDuplicateVoiceEvent`). -/
def eventKeys (v : VoiceEvent) : List DedupeKey :=
  (if isJoinEvent v then
    [DedupeKey.joinKey v.userId v.channelId v.guildId,
     DedupeKey.anyJoinKey v.userId v.guildId]
   else []) ++
  (if isLeaveEvent v then
    [DedupeKey.leaveKey v.userId (v.before.getD "") v.guildId]
   else [])

/-- `isDuplicateVoiceEvent`, duplicate-detection half: some applicable key was
seen within the dedupe window. -/
def isDuplicateVoiceEvent (last : List (DedupeKey × Int)) (v : VoiceEvent) (now : Int) :
    Bool :=
  (eventKeys v).any fun k =>
    match alookup last k with
    | some t => decide (now - t < dedupeWindow)
    | none => false

/-- `isDuplicateVoiceEvent`, bookkeeping half (runs only when not a
duplicate): record `now` under all applicable keys, then evict entries older
than the cleanup threshold. -/
def recordVoiceEvent (last : List (DedupeKey × Int)) (v : VoiceEvent) (now : Int) :
    List (DedupeKey × Int) :=
  ((eventKeys v).foldl (fun acc k => ainsert acc k now) last).filter
    fun p => decide (now - p.2 ≤ dedupeCleanupThreshold)

/-- `handleUserJoinedStudySession` (part_008): skip if the user's in-memory
session started under 10 seconds ago; otherwise end any pre-existing open DB
session (abandoning on failure), then record the in-memory start and create
the DB session (rolling the map entry back if creation fails). -/
def handleUserJoinedStudySession (st : BotState) (u : String) (now : Int)
    (f : DBFaults) : BotState :=
  let proceed : Bool :=
    match alookup st.activeSessions u with
    | none => true
    | some startTime => decide (10 ≤ now - startTime)
  if !proceed then st
  else
    let cleaned : Option BotState :=
      if f.getActiveFails then some st
      else
        match getActiveStudySession st u with
        | none => some st
        | some s =>
          if f.endFails then none
          else
            match endStudySession st s.sessionId now with
            | none => none
            | some (st2, _) => some st2
    match cleaned with
    | none => st
    | some st2 =>
      let st3 := { st2 with activeSessions := ainsert st2.activeSessions u now }
      if f.createFails then { st3 with activeSessions := aerase st3.activeSessions u }
      else (createStudySession st3 u now).1

/-- `handleUserLeftStudySession` (part_008): when the user has an in-memory
session, end the open DB session and fold its duration into the stats; the
in-memory entry is removed on every path, including all failure paths. -/
def handleUserLeftStudySession (st : BotState) (u : String) (now : Int)
    (f : DBFaults) : BotState :=
  match alookup st.activeSessions u with
  | none => st
  | some _ =>
    if f.getActiveFails then { st with activeSessions := aerase st.activeSessions u }
    else
      match getActiveStudySession st u with
      | none => { st with activeSessions := aerase st.activeSessions u }
      | some s =>
        if f.endFails then { st with activeSessions := aerase st.activeSessions u }
        else
          match endStudySession st s.sessionId now with
          | none => { st with activeSessions := aerase st.activeSessions u }
          | some (st2, ended) =>
            let st3 :=
              if ended.durationMs.getD 0 > 0 then
                if f.statsFails then st2 else addUserStats st2 u (ended.durationMs.getD 0)
              else st2
            { st3 with activeSessions := aerase st3.activeSessions u }

/-- The study-session branch of `handleVoiceStateUpdate` (part_008). -/
def sessionLogic (st : BotState) (v : VoiceEvent) (now : Int) (f : DBFaults) :
    BotState :=
  let wasIn := (alookup st.activeSessions v.userId).isSome
  let completelyLeft : Bool :=
    v.channelId == "" &&
      (match v.before with
       | none => false
       | some b => b != "")
  let newTracked : Bool := v.channelId != "" && st.tracked.contains v.channelId
  let oldTracked : Bool :=
    match v.before with
    | none => false
    | some b => b != "" && st.tracked.contains b
  if isJoinEvent v then
    if newTracked then
      if !wasIn then handleUserJoinedStudySession st v.userId now f
      else if oldTracked &&
          (match v.before with
           | none => false
           | some b => b != v.channelId) then st
      else if !oldTracked then handleUserJoinedStudySession st v.userId now f
      else st
    else if wasIn then handleUserLeftStudySession st v.userId now f
    else st
  else if completelyLeft then
    if wasIn && oldTracked then handleUserLeftStudySession st v.userId now f
    else st
  else st

/-- `handleVoiceStateUpdate` (part_008): dedupe first (discarding the event
entirely on a duplicate), then the synchronous streak leave, then the
study-session logic, then the queued streak join. -/
def handleVoiceStateUpdate (st : BotState) (v : VoiceEvent) (now : Int)
    (f : DBFaults) : BotState :=
  if isDuplicateVoiceEvent st.lastVoiceEvent v now then st
  else
    let st1 := { st with lastVoiceEvent := recordVoiceEvent st.lastVoiceEvent v now }
    let st2 := if isLeaveEvent v then serviceHandleVoiceLeave st1 v.userId v.guildId now else st1
    let st3 := sessionLogic st2 v now f
    if isJoinEvent v then serviceHandleVoiceJoin st3 v.userId v.guildId v.channelId now
    else st3

/-- `endAllActiveSessions` (part_008), one user's step: on a read failure or a
missing open DB session the user is skipped (left in the map); otherwise the
session is ended at the shutdown instant, stats are updated when the duration
is positive, and the user is removed from the map (also when ending failed). -/
def shutdownUser (st : BotState) (u : String) (now : Int) (f : DBFaults) : BotState :=
  if f.getActiveFails then st
  else
    match getActiveStudySession st u with
    | none => st
    | some s =>
      match (if f.endFails then none else endStudySession st s.sessionId now) with
      | none => { st with activeSessions := aerase st.activeSessions u }
      | some (st2, ended) =>
        let st3 :=
          if ended.durationMs.getD 0 > 0 then
            if f.statsFails then st2 else addUserStats st2 u (ended.durationMs.getD 0)
          else st2
        { st3 with activeSessions := aerase st3.activeSessions u }

/-- `endAllActiveSessions` (part_008): process every in-memory session with
the single shutdown instant `now`. -/
def endAllActiveSessions (st : BotState) (now : Int) (f : DBFaults) : BotState :=
  st.activeSessions.foldl (fun acc p => shutdownUser acc p.1 now f) st

/-- The exact condition under which `HandleVoiceLeave` reaches
`processImmediateStreakUpdate`: a countable session, today's record, the new
total crossing the minimum threshold, and `streak_incremented_today` unset. -/
def immediateUpdateFires (today now : Int) (sessionStart : Option Int)
    (r : StreakRecord) : Bool :=
  match sessionStart with
  | none => false
  | some startTime =>
    if Int.tdiv (now - startTime) 60 < 1 then false
    else if r.lastActivityDate.isSome ∧
        isSameManilaDate (r.lastActivityDate.getD 0) today then
      if r.dailyActivityMinutes.getD 0 < minimumActivityMinutes ∧
          r.dailyActivityMinutes.getD 0 + Int.tdiv (now - startTime) 60 ≥
            minimumActivityMinutes then
        if r.streakIncrementedToday then false else true
      else false
    else false

/-! ### Helper lemmas -/

theorem alookup_cons {α β : Type} [DecidableEq α] (k : α) (v : β) (l : List (α × β))
    (a : α) : alookup ((k, v) :: l) a = if k = a then some v else alookup l a := rfl

theorem aerase_cons {α β : Type} [DecidableEq α] (p : α × β) (l : List (α × β))
    (a : α) : aerase (p :: l) a = if p.1 = a then aerase l a else p :: aerase l a := by
  by_cases h : p.1 = a <;> simp [aerase, List.filter_cons, h]

theorem alookup_aerase_self {α β : Type} [DecidableEq α] (l : List (α × β)) (a : α) :
    alookup (aerase l a) a = none := by
  induction l with
  | nil => rfl
  | cons p rest ih =>
    obtain ⟨k, v⟩ := p
    rw [aerase_cons]
    by_cases h : k = a
    · rw [if_pos h, ih]
    · rw [if_neg h, alookup_cons, if_neg h, ih]

theorem alookup_aerase_ne {α β : Type} [DecidableEq α] (l : List (α × β)) (a b : α)
    (h : b ≠ a) : alookup (aerase l a) b = alookup l b := by
  induction l with
  | nil => rfl
  | cons p rest ih =>
    obtain ⟨k, v⟩ := p
    rw [aerase_cons]
    by_cases hp : k = a
    · have hpb : k ≠ b := by rw [hp]; exact fun he => h he.symm
      rw [if_pos hp, ih, alookup_cons, if_neg hpb]
    · rw [if_neg hp, alookup_cons, alookup_cons, ih]

theorem alookup_ainsert_self {α β : Type} [DecidableEq α] (l : List (α × β)) (a : α)
    (v : β) : alookup (ainsert l a v) a = some v := by
  simp [ainsert, alookup]

theorem alookup_ainsert_ne {α β : Type} [DecidableEq α] (l : List (α × β)) (a b : α)
    (v : β) (h : b ≠ a) : alookup (ainsert l a v) b = alookup l b := by
  have hab : a ≠ b := fun he => h he.symm
  rw [ainsert, alookup_cons, if_neg hab, alookup_aerase_ne l a b h]

theorem evaluateUserStreakForToday_evaluatedDate (today : Int) (r : StreakRecord) :
    ((evaluateUserStreakForToday today r).1).streakEvaluatedDate = some today := by
  simp only [evaluateUserStreakForToday, markUserEvaluated, updateUserStreakAfterEvaluation]
  split_ifs <;> rfl

theorem evaluateUserStreakForToday_flag (today : Int) (r : StreakRecord) :
    ((evaluateUserStreakForToday today r).1).streakIncrementedToday =
      r.streakIncrementedToday := by
  simp only [evaluateUserStreakForToday, markUserEvaluated, updateUserStreakAfterEvaluation]
  split_ifs <;> rfl

theorem clearDailyFlag_eq_self (r : StreakRecord)
    (h : r.streakIncrementedToday = false) : clearDailyFlag r = r := by
  cases r
  simp_all [clearDailyFlag]

theorem needsDailyEvaluation_evaluateUserStreakForToday (today : Int) (r : StreakRecord) :
    needsDailyEvaluation today ((evaluateUserStreakForToday today r).1) = false := by
  simp [needsDailyEvaluation, evaluateUserStreakForToday_evaluatedDate]

theorem dailyEvalRow_clear_idem (today : Int) (r : StreakRecord) :
    dailyEvalRow today (clearDailyFlag (dailyEvalRow today (clearDailyFlag r))) =
      dailyEvalRow today (clearDailyFlag r) := by
  cases h : needsDailyEvaluation today (clearDailyFlag r) with
  | false =>
    have h1 : dailyEvalRow today (clearDailyFlag r) = clearDailyFlag r := by
      simp [dailyEvalRow, h]
    rw [h1, clearDailyFlag_eq_self (clearDailyFlag r) rfl, h1]
  | true =>
    have h1 : dailyEvalRow today (clearDailyFlag r) =
        (evaluateUserStreakForToday today (clearDailyFlag r)).1 := by
      simp [dailyEvalRow, h]
    rw [h1]
    have hflag : ((evaluateUserStreakForToday today (clearDailyFlag r)).1).streakIncrementedToday
        = false := by
      rw [evaluateUserStreakForToday_flag]
      rfl
    rw [clearDailyFlag_eq_self _ hflag]
    simp [dailyEvalRow, needsDailyEvaluation_evaluateUserStreakForToday]

theorem evaluateAllUserStreaks_fst (today : Int) (db : List StreakRecord) :
    (evaluateAllUserStreaks today db).1 =
      (db.map clearDailyFlag).map (dailyEvalRow today) := rfl

/-- C2: running the daily batch evaluation twice for the same calendar date
produces the same `current_streak_count` and `max_streak_count` as running it
once: every evaluated row gets `streak_evaluated_date = today` (even when no
count changes), the batch selects only rows whose date is null or strictly
before today, so the second run is a no-op on the table. -/
theorem dailyEvaluation_idempotent (today : Int) (db : List StreakRecord) :
    ((evaluateAllUserStreaks today (evaluateAllUserStreaks today db).1).1.map
        fun r => (r.currentStreakCount, r.maxStreakCount)) =
      ((evaluateAllUserStreaks today db).1.map
        fun r => (r.currentStreakCount, r.maxStreakCount)) ∧
    (evaluateAllUserStreaks today (evaluateAllUserStreaks today db).1).1 =
      (evaluateAllUserStreaks today db).1 := by
  have key : ∀ l : List StreakRecord,
      ((((l.map clearDailyFlag).map (dailyEvalRow today)).map clearDailyFlag).map
          (dailyEvalRow today)) =
        (l.map clearDailyFlag).map (dailyEvalRow today) := by
    intro l
    induction l with
    | nil => rfl
    | cons a t ih =>
      simp only [List.map_cons] at ih ⊢
      rw [dailyEvalRow_clear_idem, ih]
  constructor
  · simp only [evaluateAllUserStreaks_fst]
    rw [key db]
  · simp only [evaluateAllUserStreaks_fst]
    rw [key db]

/-- C5 counterexample: a record with `current_streak_count = 5`,
`last_activity_date = yesterday` (day 0, today being day 1) and
`daily_activity_minutes` equal to the threshold is evaluated to 0 with an
"ended" notification carrying 5 — not to 6 as claimed — because qualifying
activity requires `last_activity_date = today`. -/
theorem evaluate_yesterday_threshold_counterexample :
    (evaluateUserStreakForToday 1
        ⟨"u", "g", 5, 5, some 0, none, some 1, none, false, none⟩).1.currentStreakCount = 0 ∧
    ¬ ((evaluateUserStreakForToday 1
        ⟨"u", "g", 5, 5, some 0, none, some 1, none, false, none⟩).1.currentStreakCount = 6) ∧
    (evaluateUserStreakForToday 1
        ⟨"u", "g", 5, 5, some 0, none, some 1, none, false, none⟩).2 =
      some (Notif.streakEnded 5) := by
  decide

/-- C5 amended: with `current_streak_count = 5`, `last_activity_date = today`
and `daily_activity_minutes` equal to the threshold, evaluation yields 6;
with `last_activity_date = yesterday` (today has no qualifying activity,
minutes 0), evaluation yields 0 and an "ended" notification carrying 5. -/
theorem evaluate_continuation_vs_reset :
    (evaluateUserStreakForToday 1
        ⟨"u", "g", 5, 5, some 1, none, some 1, none, false, none⟩).1.currentStreakCount = 6 ∧
    (evaluateUserStreakForToday 1
        ⟨"u", "g", 5, 5, some 1, none, some 1, none, false, none⟩).2 =
      some (Notif.streakContinued 6) ∧
    (evaluateUserStreakForToday 1
        ⟨"u", "g", 5, 5, some 0, none, some 0, none, false, none⟩).1.currentStreakCount = 0 ∧
    (evaluateUserStreakForToday 1
        ⟨"u", "g", 5, 5, some 0, none, some 0, none, false, none⟩).2 =
      some (Notif.streakEnded 5) := by
  decide

/-- C1 counterexample: a one-minute leave for a user with today's record at 0
minutes, `current_streak_count = 5` and the daily flag unset makes the
voice-leave accumulation step mutate `current_streak_count` to 6 through
`processImmediateStreakUpdate`, so the step does not always preserve it. -/
theorem handleVoiceLeave_mutates_streak_counterexample :
    ((handleVoiceLeave 1 60 (some 0)
        (some ⟨"u", "g", 5, 5, some 1, none, some 0, none, false, none⟩)).1.map
      fun t => t.currentStreakCount) = some 6 ∧
    (⟨"u", "g", 5, 5, some 1, none, some 0, none, false, none⟩ :
      StreakRecord).currentStreakCount = 5 := by
  decide

/-- C1 amended: the voice-leave accumulation step leaves
`current_streak_count` unchanged except exactly when the session is
countable, the record is today's, the new total crosses the minimum threshold
and `streak_incremented_today` is unset; in that case it performs the
immediate increment (0 becomes 1, otherwise +1). -/
theorem handleVoiceLeave_streakCount_characterized (today now : Int)
    (sessionStart : Option Int) (r : StreakRecord) :
    ((handleVoiceLeave today now sessionStart (some r)).1.map
        fun t => t.currentStreakCount) =
      some (if immediateUpdateFires today now sessionStart r then
              (if r.currentStreakCount = 0 then 1 else r.currentStreakCount + 1)
            else r.currentStreakCount) := by
  cases sessionStart with
  | none => simp [handleVoiceLeave, immediateUpdateFires]
  | some startTime =>
    simp only [handleVoiceLeave, immediateUpdateFires]
    split_ifs <;> try contradiction
    all_goals simp_all [processImmediateStreakUpdate, updateStreakImmediately]

/-- C10: the elapsed duration is truncated to whole minutes; a truncated
value below 1 makes `HandleVoiceLeave` return with no mutation at all, and
when processing happens only the truncated minutes are accumulated. -/
theorem handleVoiceLeave_subminute_truncation (today now startTime : Int)
    (rec : Option StreakRecord) :
    (Int.tdiv (now - startTime) 60 < 1 →
      handleVoiceLeave today now (some startTime) rec = (rec, none)) ∧
    (∀ r : StreakRecord, rec = some r →
      1 ≤ Int.tdiv (now - startTime) 60 →
      (r.lastActivityDate.isSome ∧ isSameManilaDate (r.lastActivityDate.getD 0) today) →
      ((handleVoiceLeave today now (some startTime) rec).1.map
          fun t => t.dailyActivityMinutes) =
        some (some (r.dailyActivityMinutes.getD 0 + Int.tdiv (now - startTime) 60))) := by
  constructor
  · intro h
    simp [handleVoiceLeave, h]
  · rintro r rfl hge hsame
    have hlt : ¬ (Int.tdiv (now - startTime) 60 < 1) := by omega
    simp only [handleVoiceLeave]
    split_ifs <;>
      simp_all [processImmediateStreakUpdate, updateStreakImmediately]

/-- Witness for C10's theorem: a 59-second session is below one truncated
minute and the call returns the record unchanged with no notification. -/
theorem handleVoiceLeave_subminute_truncation_witness :
    handleVoiceLeave 0 59 (some 0)
        (some ⟨"u", "g", 0, 0, some 0, none, some 0, none, false, none⟩) =
      (some ⟨"u", "g", 0, 0, some 0, none, some 0, none, false, none⟩, none) :=
  (handleVoiceLeave_subminute_truncation 0 59 0
    (some ⟨"u", "g", 0, 0, some 0, none, some 0, none, false, none⟩)).1 (by decide)

theorem applyStreakOp_preserves (op : StreakOp) (s : Option StreakRecord)
    (h : StreakInv s) :
    StreakInv (applyStreakOp op s) ∧ maxOf s ≤ maxOf (applyStreakOp op s) := by
  cases op with
  | startDaily u g date t =>
    cases s with
    | none => exact ⟨⟨le_refl 0, le_refl 0⟩, le_refl 0⟩
    | some r => exact ⟨h, le_refl _⟩
  | updateMinutes v =>
    cases s with
    | none => exact ⟨trivial, le_refl 0⟩
    | some r => exact ⟨h, le_refl _⟩
  | immediate m =>
    cases s with
    | none => exact ⟨trivial, le_refl 0⟩
    | some r =>
      obtain ⟨ha, hb⟩ := h
      simp only [applyStreakOp, Option.map, processImmediateStreakUpdate,
        updateStreakImmediately]
      split_ifs <;> simp only [StreakInv, maxOf] <;> omega
  | dailyEval today =>
    cases s with
    | none => exact ⟨trivial, le_refl 0⟩
    | some r =>
      obtain ⟨ha, hb⟩ := h
      simp only [applyStreakOp, Option.map, evaluateUserStreakForToday,
        markUserEvaluated, updateUserStreakAfterEvaluation]
      split_ifs <;> simp only [StreakInv, maxOf] <;> omega
  | reset =>
    cases s with
    | none => exact ⟨trivial, le_refl 0⟩
    | some r =>
      obtain ⟨ha, hb⟩ := h
      exact ⟨⟨le_refl 0, le_trans ha hb⟩, le_refl _⟩

/-- C3: over any sequence of the write operations (join initialisation,
minute accumulation, immediate update, daily evaluation, reset) starting from
a record satisfying the row invariant, `max_streak_count` is non-decreasing
and `max_streak_count >= current_streak_count >= 0` holds after every write
(instantiate the sequence with any prefix). -/
theorem maxStreak_monotone_invariant (ops : List StreakOp) (s : Option StreakRecord)
    (h : StreakInv s) :
    StreakInv (applyStreakOps ops s) ∧ maxOf s ≤ maxOf (applyStreakOps ops s) := by
  induction ops generalizing s with
  | nil => exact ⟨h, le_refl _⟩
  | cons op rest ih =>
    have hstep := applyStreakOp_preserves op s h
    have hrest := ih (applyStreakOp op s) hstep.1
    exact ⟨hrest.1, le_trans hstep.2 hrest.2⟩

/-- Witness for C3's theorem: the invariant holds along a concrete sequence
touching every operation, started from an absent row. -/
theorem maxStreak_monotone_invariant_witness :
    StreakInv (applyStreakOps [StreakOp.startDaily "u" "g" 0 0,
        StreakOp.updateMinutes 3, StreakOp.immediate 3, StreakOp.dailyEval 0,
        StreakOp.reset] none) ∧
      maxOf none ≤ maxOf (applyStreakOps [StreakOp.startDaily "u" "g" 0 0,
        StreakOp.updateMinutes 3, StreakOp.immediate 3, StreakOp.dailyEval 0,
        StreakOp.reset] none) :=
  maxStreak_monotone_invariant [StreakOp.startDaily "u" "g" 0 0,
    StreakOp.updateMinutes 3, StreakOp.immediate 3, StreakOp.dailyEval 0,
    StreakOp.reset] none trivial

/-- C8: on a leave event for a user with an in-memory session, the user's
entry is removed from the active-session map in every outcome, including a
failing or empty active-session read and a failing session-end write. -/
theorem leave_always_removes_session (st : BotState) (u : String) (now : Int)
    (f : DBFaults) (h : (alookup st.activeSessions u).isSome = true) :
    alookup (handleUserLeftStudySession st u now f).activeSessions u = none := by
  obtain ⟨startTime, hl⟩ := Option.isSome_iff_exists.mp h
  simp only [handleUserLeftStudySession, hl]
  by_cases hf1 : f.getActiveFails = true
  · simp [hf1, alookup_aerase_self]
  · simp only [hf1, if_neg, Bool.false_eq_true, if_false]
    cases hg : getActiveStudySession st u with
    | none => simp [alookup_aerase_self]
    | some s =>
      by_cases hf2 : f.endFails = true
      · simp [hf2, alookup_aerase_self]
      · simp only [hf2, Bool.false_eq_true, if_false]
        cases he : endStudySession st s.sessionId now with
        | none => simp [alookup_aerase_self]
        | some pr =>
          obtain ⟨st2, ended⟩ := pr
          split_ifs <;> simp [alookup_aerase_self]

/-- Witness for C8's theorem at a concrete state with one in-memory session
and a fault on the session-end write. -/
theorem leave_always_removes_session_witness :
    alookup (handleUserLeftStudySession
        { initBotState ["c"] with
          activeSessions := [("u", 0)]
          dbSessions := [⟨1, "u", 0, none, none⟩]
          nextSessionId := 2 } "u" 120 ⟨false, true, false, false⟩).activeSessions
      "u" = none :=
  leave_always_removes_session
    { initBotState ["c"] with
      activeSessions := [("u", 0)]
      dbSessions := [⟨1, "u", 0, none, none⟩]
      nextSessionId := 2 } "u" 120 ⟨false, true, false, false⟩ (by decide)

theorem getActiveStudySession_spec (st : BotState) (u : String) (s : DBSession)
    (h : getActiveStudySession st u = some s) :
    s ∈ st.dbSessions ∧ s.userId = u ∧ s.endTime = none := by
  simp only [getActiveStudySession] at h
  have hm := List.mem_of_find?_eq_some h
  have hp := List.find?_some h
  simp only [Bool.and_eq_true, beq_iff_eq] at hp
  exact ⟨hm, hp.1, hp.2⟩

/-- C9: when a join is processed for a user who already has an in-memory
session, the policy is: under 10 seconds since the session started, the event
is ignored and nothing changes; otherwise (absent failures) the open database
session is ended at the current instant, the in-memory start time is
overwritten with the current instant, and a fresh open session is created. -/
theorem join_existing_session_policy (st : BotState) (u : String)
    (now startTime : Int) (hmem : alookup st.activeSessions u = some startTime) :
    (now - startTime < 10 → ∀ f, handleUserJoinedStudySession st u now f = st) ∧
    (10 ≤ now - startTime →
      alookup (handleUserJoinedStudySession st u now noFaults).activeSessions u =
        some now ∧
      (∀ s, getActiveStudySession st u = some s →
        endStudySessionRow s now ∈
          (handleUserJoinedStudySession st u now noFaults).dbSessions) ∧
      (∃ sid, (⟨sid, u, now, none, none⟩ : DBSession) ∈
        (handleUserJoinedStudySession st u now noFaults).dbSessions)) := by
  constructor
  · intro h f
    have hd : ¬ (10 ≤ now - startTime) := by omega
    simp [handleUserJoinedStudySession, hmem, hd]
  · intro h
    have hd : (10 ≤ now - startTime) := h
    cases hg : getActiveStudySession st u with
    | none =>
      simp only [handleUserJoinedStudySession, hmem, hd, decide_eq_true_eq, hg,
        noFaults, Bool.not_true, Bool.false_eq_true, if_false, decide_True,
        createStudySession]
      refine ⟨?_, ?_, ?_⟩
      · simpa using alookup_ainsert_self st.activeSessions u now
      · intro s hs
        simp [hg] at hs
      · exact ⟨st.nextSessionId, by simp⟩
    | some s =>
      obtain ⟨hsmem, hsu, hsopen⟩ := getActiveStudySession_spec st u s hg
      have hfind : (st.dbSessions.find? fun t =>
          t.sessionId == s.sessionId && t.endTime == none).isSome = true := by
        rw [List.find?_isSome]
        exact ⟨s, hsmem, by simp [hsopen]⟩
      obtain ⟨found, hfound⟩ := Option.isSome_iff_exists.mp hfind
      simp only [handleUserJoinedStudySession, hmem, hd, decide_eq_true_eq, hg,
        noFaults, Bool.not_true, Bool.false_eq_true, if_false, decide_True,
        endStudySession, hfound, createStudySession]
      refine ⟨?_, ?_, ?_⟩
      · simpa using alookup_ainsert_self st.activeSessions u now
      · intro s2 hs2
        have hss : s = s2 := by injection hs2
        rcases hss with rfl
        refine List.mem_append_left _ (List.mem_map.mpr ⟨s, hsmem, ?_⟩)
        simp [closeSessionRow, hsopen]
      · exact ⟨st.nextSessionId, by simp⟩

theorem first_join_state (u g c : String) (tracked : List String) (t1 : Int)
    (hc : c ≠ "") (htr : c ∈ tracked) :
    handleVoiceStateUpdate (initBotState tracked) ⟨u, g, none, c⟩ t1 noFaults =
      { activeSessions := [(u, t1)]
        lastVoiceEvent := [(DedupeKey.anyJoinKey u g, t1), (DedupeKey.joinKey u c g, t1)]
        dbSessions := [⟨1, u, t1, none, none⟩]
        userStats := []
        streaks := [⟨u, g, 0, 0, some (manilaDate t1), none, some 0, some t1, false, none⟩]
        tracked := tracked
        nextSessionId := 2
        notifs := [] } := by
  have ht : t1 ≤ dedupeCleanupThreshold + t1 := by simp [dedupeCleanupThreshold]
  simp [handleVoiceStateUpdate, isDuplicateVoiceEvent, eventKeys, isJoinEvent, isLeaveEvent,
    recordVoiceEvent, ainsert, aerase, alookup, sessionLogic, handleUserJoinedStudySession,
    getActiveStudySession, createStudySession, serviceHandleVoiceJoin, hasActivityForDate,
    upsertDailyActivity, getUserStreak, startDailyActivity, setUserStreak, initBotState,
    noFaults, hc, htr, ht]

/-- C4: two physically identical join events for a tracked channel arriving
within the dedupe window, fed to the voice-event handler from a fresh state,
leave exactly one in-memory session entry for the user: the second event is
discarded before any bookkeeping, leaving the state untouched. -/
theorem duplicate_join_single_session (u g c : String) (tracked : List String)
    (t1 t2 : Int) (hc : c ≠ "") (htr : c ∈ tracked) (h12 : t1 ≤ t2)
    (hwin : t2 - t1 < dedupeWindow) :
    handleVoiceStateUpdate
        (handleVoiceStateUpdate (initBotState tracked) ⟨u, g, none, c⟩ t1 noFaults)
        ⟨u, g, none, c⟩ t2 noFaults =
      handleVoiceStateUpdate (initBotState tracked) ⟨u, g, none, c⟩ t1 noFaults ∧
    (handleVoiceStateUpdate (initBotState tracked)
        ⟨u, g, none, c⟩ t1 noFaults).activeSessions = [(u, t1)] := by
  have hst1 := first_join_state u g c tracked t1 hc htr
  refine ⟨?_, by rw [hst1]⟩
  rw [hst1]
  have hdup : isDuplicateVoiceEvent
      [(DedupeKey.anyJoinKey u g, t1), (DedupeKey.joinKey u c g, t1)]
      ⟨u, g, none, c⟩ t2 = true := by
    simp [isDuplicateVoiceEvent, eventKeys, isJoinEvent, isLeaveEvent, alookup, hc, hwin]
  simp [handleVoiceStateUpdate, hdup]

/-- Witness for C4's theorem at a concrete pair of events 2 seconds apart. -/
theorem duplicate_join_single_session_witness :
    handleVoiceStateUpdate
        (handleVoiceStateUpdate (initBotState ["c"]) ⟨"u", "g", none, "c"⟩ 0 noFaults)
        ⟨"u", "g", none, "c"⟩ 2 noFaults =
      handleVoiceStateUpdate (initBotState ["c"]) ⟨"u", "g", none, "c"⟩ 0 noFaults ∧
    (handleVoiceStateUpdate (initBotState ["c"])
        ⟨"u", "g", none, "c"⟩ 0 noFaults).activeSessions = [("u", 0)] :=
  duplicate_join_single_session "u" "g" "c" ["c"] 0 2 (by decide)
    (by simp) (by decide) (by decide)

/-- C7 counterexample: with an empty tracked-channel set, a join event to
channel "c" opens no session (the map stays empty) and the streak service
records nothing — the event is ignored, not treated as relevant. -/
theorem empty_tracked_join_counterexample :
    (handleVoiceStateUpdate (initBotState []) ⟨"u", "g", none, "c"⟩ 0
        noFaults).activeSessions = [] ∧
    (handleVoiceStateUpdate (initBotState []) ⟨"u", "g", none, "c"⟩ 0
        noFaults).streaks = [] ∧
    (handleVoiceStateUpdate (initBotState []) ⟨"u", "g", none, "c"⟩ 0
        noFaults).dbSessions = [] := by
  decide

/-- C7 amended: when the configured tracked-channel set is empty, no channel
counts as tracked in the live handler: a join event for a user with no
in-memory session leaves the session map and the streak table unchanged (the
"all channels when none configured" rule exists only in a superseded
handler). -/
theorem empty_tracked_ignores_joins (st : BotState) (v : VoiceEvent) (now : Int)
    (f : DBFaults) (hempty : st.tracked = []) (hbefore : v.before = none)
    (hnosess : alookup st.activeSessions v.userId = none) :
    (handleVoiceStateUpdate st v now f).activeSessions = st.activeSessions ∧
    (handleVoiceStateUpdate st v now f).streaks = st.streaks := by
  by_cases hdup : isDuplicateVoiceEvent st.lastVoiceEvent v now = true
  · simp [handleVoiceStateUpdate, hdup]
  · have hdup' : isDuplicateVoiceEvent st.lastVoiceEvent v now = false := by
      simpa using hdup
    obtain ⟨vu, vg, vb, vc⟩ := v
    simp only at hbefore hnosess
    subst hbefore
    simp [handleVoiceStateUpdate, hdup', sessionLogic, isLeaveEvent, isJoinEvent,
      serviceHandleVoiceJoin, hempty, hnosess]

/-- Witness for C7's amended theorem at a concrete state and event. -/
theorem empty_tracked_ignores_joins_witness :
    (handleVoiceStateUpdate (initBotState []) ⟨"u", "g", none, "c"⟩ 5
        noFaults).activeSessions = (initBotState []).activeSessions ∧
    (handleVoiceStateUpdate (initBotState []) ⟨"u", "g", none, "c"⟩ 5
        noFaults).streaks = (initBotState []).streaks :=
  empty_tracked_ignores_joins (initBotState []) ⟨"u", "g", none, "c"⟩ 5 noFaults
    rfl rfl rfl

/-- Witness for C9's theorem: a join 5 seconds after the existing session
start is ignored. -/
theorem join_existing_session_policy_witness :
    handleUserJoinedStudySession
        { initBotState ["c"] with
          activeSessions := [("u", 0)]
          dbSessions := [⟨1, "u", 0, none, none⟩]
          nextSessionId := 2 } "u" 5 noFaults =
      { initBotState ["c"] with
        activeSessions := [("u", 0)]
        dbSessions := [⟨1, "u", 0, none, none⟩]
        nextSessionId := 2 } :=
  (join_existing_session_policy
    { initBotState ["c"] with
      activeSessions := [("u", 0)]
      dbSessions := [⟨1, "u", 0, none, none⟩]
      nextSessionId := 2 } "u" 5 0 (by decide)).1 (by decide) noFaults

theorem mem_aerase {α β : Type} [DecidableEq α] {l : List (α × β)} {a : α} {q : α × β} :
    q ∈ aerase l a ↔ q ∈ l ∧ q.1 ≠ a := by
  simp [aerase, List.mem_filter]

theorem closeSessionRow_sessionId (sid : Nat) (now : Int) (t : DBSession) :
    (closeSessionRow sid now t).sessionId = t.sessionId := by
  simp only [closeSessionRow]
  split <;> rfl

theorem closeSessionRow_of_closed (sid : Nat) (now : Int) (t : DBSession)
    (h : t.endTime ≠ none) : closeSessionRow sid now t = t := by
  simp [closeSessionRow, h]

theorem closeSessionRow_of_ne (sid : Nat) (now : Int) (t : DBSession)
    (h : t.sessionId ≠ sid) : closeSessionRow sid now t = t := by
  simp [closeSessionRow, h]

theorem closeMap_of_id_notin (l : List DBSession) (sid : Nat) (now : Int)
    (h : ∀ t ∈ l, t.sessionId ≠ sid) : l.map (closeSessionRow sid now) = l := by
  induction l with
  | nil => rfl
  | cons a t ih =>
    rw [List.map_cons, closeSessionRow_of_ne sid now a (h a (List.mem_cons_self a t)),
      ih (fun x hx => h x (List.mem_cons_of_mem a hx))]

theorem closeMap_ids (l : List DBSession) (sid : Nat) (now : Int) :
    (l.map (closeSessionRow sid now)).map (fun t => t.sessionId) =
      l.map (fun t => t.sessionId) := by
  rw [List.map_map]
  exact List.map_congr_left (fun t _ => closeSessionRow_sessionId sid now t)

theorem find?_session_by_id (l : List DBSession) (s : DBSession)
    (hnodup : (l.map (fun t => t.sessionId)).Nodup) (hs : s ∈ l)
    (hopen : s.endTime = none) :
    l.find? (fun t => t.sessionId == s.sessionId && t.endTime == none) = some s := by
  induction l with
  | nil => cases hs
  | cons a t ih =>
    rw [List.map_cons, List.nodup_cons] at hnodup
    rcases List.mem_cons.mp hs with rfl | hmem
    · simp [List.find?_cons, hopen]
    · have hna : (a.sessionId == s.sessionId) = false := by
        rw [beq_eq_false_iff_ne]
        intro he
        exact hnodup.1 (by rw [he]; exact List.mem_map_of_mem (fun t => t.sessionId) hmem)
      rw [List.find?_cons]
      simp only [hna, Bool.false_and]
      exact ih hnodup.2 hmem

theorem getActive_closeMap_ne (l : List DBSession) (s : DBSession) (now : Int)
    (u' : String) (hnodup : (l.map (fun t => t.sessionId)).Nodup) (hs : s ∈ l)
    (hopen : s.endTime = none) (hus : s.userId ≠ u') :
    (l.map (closeSessionRow s.sessionId now)).find?
        (fun t => t.userId == u' && t.endTime == none) =
      l.find? (fun t => t.userId == u' && t.endTime == none) := by
  induction l with
  | nil => rfl
  | cons a t ih =>
    rw [List.map_cons, List.nodup_cons] at hnodup
    rcases List.mem_cons.mp hs with rfl | hmem
    · have h1 : closeSessionRow s.sessionId now s = endStudySessionRow s now := by
        simp [closeSessionRow, hopen]
      have h2 : t.map (closeSessionRow s.sessionId now) = t := by
        apply closeMap_of_id_notin
        intro x hx he
        exact hnodup.1 (by rw [← he]; exact List.mem_map_of_mem (fun t => t.sessionId) hx)
      rw [List.map_cons, h1, h2, List.find?_cons, List.find?_cons]
      have hp1 : ((endStudySessionRow s now).userId == u' &&
          (endStudySessionRow s now).endTime == none) = false := by
        simp [endStudySessionRow]
      have hp2 : (s.userId == u' && s.endTime == none) = false := by
        simp [hus]
      rw [hp1, hp2]
    · have hna : a.sessionId ≠ s.sessionId := fun he =>
        hnodup.1 (by rw [he]; exact List.mem_map_of_mem (fun t => t.sessionId) hmem)
      rw [List.map_cons, closeSessionRow_of_ne _ _ _ hna, List.find?_cons, List.find?_cons]
      cases hp : (a.userId == u' && a.endTime == none) with
      | true => rfl
      | false =>
        simp only [hp]
        exact ih hnodup.2 hmem

theorem alookup_statsUpsert_self (l : List (String × Int)) (u : String) (ms : Int) :
    alookup (statsUpsert l u ms) u = some ((alookup l u).getD 0 + ms) := by
  cases h : alookup l u <;> simp [statsUpsert, h, alookup_ainsert_self]

theorem alookup_statsUpsert_ne (l : List (String × Int)) (u w : String) (ms : Int)
    (h : w ≠ u) : alookup (statsUpsert l u ms) w = alookup l w := by
  cases hl : alookup l u <;> simp [statsUpsert, hl, alookup_ainsert_ne _ _ _ _ h]

theorem endStudySession_spec (st : BotState) (sid : Nat) (now : Int)
    (st2 : BotState) (ended : DBSession)
    (h : endStudySession st sid now = some (st2, ended)) :
    st2 = { st with dbSessions := st.dbSessions.map (closeSessionRow sid now) } := by
  unfold endStudySession at h
  cases hf : st.dbSessions.find? (fun s => s.sessionId == sid && s.endTime == none) with
  | none => rw [hf] at h; cases h
  | some s =>
    rw [hf] at h
    injection h with h1
    have := congrArg Prod.fst h1
    exact this.symm

theorem shutdownUser_of_open (acc : BotState) (u : String) (now : Int) (s : DBSession)
    (hg : getActiveStudySession acc u = some s)
    (hnodup : (acc.dbSessions.map (fun t => t.sessionId)).Nodup) :
    shutdownUser acc u now noFaults =
      { acc with
        activeSessions := aerase acc.activeSessions u
        dbSessions := acc.dbSessions.map (closeSessionRow s.sessionId now)
        userStats := if 0 < (now - s.startTime) * 1000 then
            statsUpsert acc.userStats u ((now - s.startTime) * 1000)
          else acc.userStats } := by
  obtain ⟨hsmem, hsu, hsopen⟩ := getActiveStudySession_spec acc u s hg
  have hfind := find?_session_by_id acc.dbSessions s hnodup hsmem hsopen
  simp only [shutdownUser, noFaults, hg, Bool.false_eq_true, if_false,
    endStudySession, hfind, addUserStats, endStudySessionRow, Option.getD_some, gt_iff_lt]
  split_ifs <;> rfl

theorem shutdownUser_preserves_closed (acc : BotState) (w : String) (now : Int)
    (r : DBSession) (hr : r ∈ acc.dbSessions) (hcl : r.endTime ≠ none) :
    r ∈ (shutdownUser acc w now noFaults).dbSessions := by
  cases hg : getActiveStudySession acc w with
  | none => simpa [shutdownUser, noFaults, hg] using hr
  | some s2 =>
    cases he : endStudySession acc s2.sessionId now with
    | none => simpa [shutdownUser, noFaults, hg, he] using hr
    | some pr =>
      obtain ⟨st2, ended⟩ := pr
      have hst2 := endStudySession_spec acc s2.sessionId now st2 ended he
      subst hst2
      simp only [shutdownUser, noFaults, hg, he, Bool.false_eq_true, if_false,
        addUserStats]
      split_ifs <;>
        exact List.mem_map.mpr ⟨r, hr, closeSessionRow_of_closed _ _ _ hcl⟩

theorem shutdownUser_preserves_stats_ne (acc : BotState) (w : String) (now : Int)
    (u : String) (hwu : u ≠ w) :
    alookup (shutdownUser acc w now noFaults).userStats u =
      alookup acc.userStats u := by
  cases hg : getActiveStudySession acc w with
  | none => simp [shutdownUser, noFaults, hg]
  | some s2 =>
    cases he : endStudySession acc s2.sessionId now with
    | none => simp [shutdownUser, noFaults, hg, he]
    | some pr =>
      obtain ⟨st2, ended⟩ := pr
      have hst2 := endStudySession_spec acc s2.sessionId now st2 ended he
      subst hst2
      simp only [shutdownUser, noFaults, hg, he, Bool.false_eq_true, if_false,
        addUserStats]
      split_ifs
      · exact alookup_statsUpsert_ne _ _ _ _ hwu
      · rfl

theorem shutdownUser_ids (acc : BotState) (w : String) (now : Int) :
    ((shutdownUser acc w now noFaults).dbSessions.map (fun t => t.sessionId)) =
      acc.dbSessions.map (fun t => t.sessionId) := by
  cases hg : getActiveStudySession acc w with
  | none => simp [shutdownUser, noFaults, hg]
  | some s2 =>
    cases he : endStudySession acc s2.sessionId now with
    | none => simp [shutdownUser, noFaults, hg, he]
    | some pr =>
      obtain ⟨st2, ended⟩ := pr
      have hst2 := endStudySession_spec acc s2.sessionId now st2 ended he
      subst hst2
      simp only [shutdownUser, noFaults, hg, he, Bool.false_eq_true, if_false,
        addUserStats]
      split_ifs <;> exact closeMap_ids _ _ _

theorem shutdownUser_getActive_ne (acc : BotState) (w : String) (now : Int)
    (u' : String) (hne : u' ≠ w)
    (hnodup : (acc.dbSessions.map (fun t => t.sessionId)).Nodup) :
    getActiveStudySession (shutdownUser acc w now noFaults) u' =
      getActiveStudySession acc u' := by
  cases hg : getActiveStudySession acc w with
  | none => simp [shutdownUser, noFaults, hg]
  | some s2 =>
    obtain ⟨hsmem, hsu, hsopen⟩ := getActiveStudySession_spec acc w s2 hg
    cases he : endStudySession acc s2.sessionId now with
    | none =>
      simp only [shutdownUser, noFaults, hg, he, Bool.false_eq_true, if_false]
      rfl
    | some pr =>
      obtain ⟨st2, ended⟩ := pr
      have hst2 := endStudySession_spec acc s2.sessionId now st2 ended he
      subst hst2
      have hkey : s2.userId ≠ u' := by rw [hsu]; exact fun hx => hne hx.symm
      simp only [shutdownUser, noFaults, hg, he, Bool.false_eq_true, if_false,
        addUserStats]
      split_ifs <;>
        (simp only [getActiveStudySession, addUserStats]
         exact getActive_closeMap_ne acc.dbSessions s2 now u' hnodup hsmem hsopen hkey)

theorem shutdownUser_activeSessions_of_open (acc : BotState) (u : String) (now : Int)
    (s : DBSession) (hg : getActiveStudySession acc u = some s)
    (hnodup : (acc.dbSessions.map (fun t => t.sessionId)).Nodup) :
    (shutdownUser acc u now noFaults).activeSessions = aerase acc.activeSessions u := by
  rw [shutdownUser_of_open acc u now s hg hnodup]

theorem foldl_shutdown_preserves_closed (now : Int) (entries : List (String × Int)) :
    ∀ (acc : BotState) (r : DBSession), r ∈ acc.dbSessions → r.endTime ≠ none →
      r ∈ (entries.foldl (fun a p => shutdownUser a p.1 now noFaults) acc).dbSessions := by
  induction entries with
  | nil =>
    intro acc r hr _
    exact hr
  | cons p rest ih =>
    intro acc r hr hcl
    simp only [List.foldl_cons]
    exact ih _ r (shutdownUser_preserves_closed acc p.1 now r hr hcl) hcl

theorem foldl_shutdown_preserves_stats (now : Int) (entries : List (String × Int)) :
    ∀ (acc : BotState) (u : String), u ∉ entries.map Prod.fst →
      alookup (entries.foldl (fun a p => shutdownUser a p.1 now noFaults) acc).userStats u
        = alookup acc.userStats u := by
  induction entries with
  | nil =>
    intro acc u _
    rfl
  | cons p rest ih =>
    intro acc u hu
    rw [List.map_cons] at hu
    have h1 : u ≠ p.1 := fun he => hu (by rw [he]; exact List.mem_cons_self _ _)
    have h2 : u ∉ rest.map Prod.fst := fun hm => hu (List.mem_cons_of_mem _ hm)
    simp only [List.foldl_cons]
    rw [ih _ u h2, shutdownUser_preserves_stats_ne acc p.1 now u h1]

theorem endAll_go (now : Int) (entries : List (String × Int)) :
    ∀ acc : BotState,
    (acc.dbSessions.map (fun t => t.sessionId)).Nodup →
    (entries.map Prod.fst).Nodup →
    (∀ p ∈ entries, ∃ s, getActiveStudySession acc p.1 = some s) →
    (∀ q ∈ acc.activeSessions, q.1 ∈ entries.map Prod.fst) →
    (entries.foldl (fun a p => shutdownUser a p.1 now noFaults) acc).activeSessions = [] ∧
    (∀ p ∈ entries, ∀ s, getActiveStudySession acc p.1 = some s →
      endStudySessionRow s now ∈
        (entries.foldl (fun a p => shutdownUser a p.1 now noFaults) acc).dbSessions ∧
      (0 < (now - s.startTime) * 1000 →
        alookup (entries.foldl (fun a p => shutdownUser a p.1 now noFaults) acc).userStats
            p.1 =
          some ((alookup acc.userStats p.1).getD 0 + (now - s.startTime) * 1000))) := by
  induction entries with
  | nil =>
    intro acc _ _ _ hmem
    refine ⟨?_, fun p hp => absurd hp (List.not_mem_nil p)⟩
    exact List.eq_nil_iff_forall_not_mem.mpr (fun q hq => by simpa using hmem q hq)
  | cons p rest ih =>
    intro acc hids hkeys hopen hmem
    obtain ⟨s, hgs⟩ := hopen p (List.mem_cons_self _ _)
    obtain ⟨hsmem, hsu, hsopen⟩ := getActiveStudySession_spec acc p.1 s hgs
    rw [List.map_cons, List.nodup_cons] at hkeys
    simp only [List.foldl_cons]
    have hids' : ((shutdownUser acc p.1 now noFaults).dbSessions.map
        (fun t => t.sessionId)).Nodup := by
      rw [shutdownUser_ids]; exact hids
    have hgact : ∀ u', u' ≠ p.1 →
        getActiveStudySession (shutdownUser acc p.1 now noFaults) u' =
          getActiveStudySession acc u' :=
      fun u' hu' => shutdownUser_getActive_ne acc p.1 now u' hu' hids
    have hopen' : ∀ q ∈ rest, ∃ s2,
        getActiveStudySession (shutdownUser acc p.1 now noFaults) q.1 = some s2 := by
      intro q hq
      have hne : q.1 ≠ p.1 := fun he =>
        hkeys.1 (by rw [← he]; exact List.mem_map_of_mem Prod.fst hq)
      obtain ⟨s2, hs2⟩ := hopen q (List.mem_cons_of_mem _ hq)
      exact ⟨s2, by rw [hgact q.1 hne]; exact hs2⟩
    have hact' : (shutdownUser acc p.1 now noFaults).activeSessions =
        aerase acc.activeSessions p.1 :=
      shutdownUser_activeSessions_of_open acc p.1 now s hgs hids
    have hmem' : ∀ q ∈ (shutdownUser acc p.1 now noFaults).activeSessions,
        q.1 ∈ rest.map Prod.fst := by
      intro q hq
      rw [hact'] at hq
      obtain ⟨hq1, hq2⟩ := mem_aerase.mp hq
      have hin := hmem q hq1
      rw [List.map_cons] at hin
      rcases List.mem_cons.mp hin with he | hm
      · exact absurd he hq2
      · exact hm
    have hstats' : ∀ u', u' ≠ p.1 →
        alookup (shutdownUser acc p.1 now noFaults).userStats u' =
          alookup acc.userStats u' :=
      fun u' hu' => shutdownUser_preserves_stats_ne acc p.1 now u' hu'
    have hmain := ih (shutdownUser acc p.1 now noFaults) hids' hkeys.2 hopen' hmem'
    refine ⟨hmain.1, ?_⟩
    intro q hq s' hgs'
    rcases List.mem_cons.mp hq with rfl | hqrest
    · have hss : s = s' := by
        rw [hgs] at hgs'
        injection hgs'
      subst hss
      constructor
      · apply foldl_shutdown_preserves_closed now rest (shutdownUser acc q.1 now noFaults)
        · rw [shutdownUser_of_open acc q.1 now s hgs hids]
          exact List.mem_map.mpr ⟨s, hsmem, by simp [closeSessionRow, hsopen]⟩
        · simp [endStudySessionRow]
      · intro hdur
        rw [foldl_shutdown_preserves_stats now rest
          (shutdownUser acc q.1 now noFaults) q.1 hkeys.1]
        rw [shutdownUser_of_open acc q.1 now s hgs hids]
        show alookup (if 0 < (now - s.startTime) * 1000 then
            statsUpsert acc.userStats q.1 ((now - s.startTime) * 1000)
          else acc.userStats) q.1 = _
        rw [if_pos hdur, alookup_statsUpsert_self]
    · have hne : q.1 ≠ p.1 := fun he =>
        hkeys.1 (by rw [← he]; exact List.mem_map_of_mem Prod.fst hqrest)
      have hgs2 : getActiveStudySession (shutdownUser acc p.1 now noFaults) q.1 =
          some s' := by
        rw [hgact q.1 hne]; exact hgs'
      have hres := hmain.2 q hqrest s' hgs2
      refine ⟨hres.1, ?_⟩
      intro hdur
      rw [hres.2 hdur, hstats' q.1 hne]

/-- C6: at shutdown, when every user in the in-memory map has an open
database session (with distinct map keys and distinct session ids) and no
database call fails, `endAllActiveSessions` closes each open session using
the shutdown instant as the implicit leave time, persists its duration into
the user's stats when positive, and leaves the in-memory map empty. -/
theorem shutdown_flush (st : BotState) (now : Int)
    (hids : (st.dbSessions.map (fun t => t.sessionId)).Nodup)
    (hkeys : (st.activeSessions.map Prod.fst).Nodup)
    (hopen : ∀ p ∈ st.activeSessions, ∃ s, getActiveStudySession st p.1 = some s) :
    (endAllActiveSessions st now noFaults).activeSessions = [] ∧
    (∀ p ∈ st.activeSessions, ∀ s, getActiveStudySession st p.1 = some s →
      endStudySessionRow s now ∈ (endAllActiveSessions st now noFaults).dbSessions ∧
      (0 < (now - s.startTime) * 1000 →
        alookup (endAllActiveSessions st now noFaults).userStats p.1 =
          some ((alookup st.userStats p.1).getD 0 + (now - s.startTime) * 1000))) :=
  endAll_go now st.activeSessions st hids hkeys hopen
    (fun _ hq => List.mem_map_of_mem Prod.fst hq)

/-- Witness for C6's theorem: one open session of 10 elapsed minutes is
flushed (600000 ms persisted) and the map is left empty. -/
theorem shutdown_flush_witness :
    (endAllActiveSessions
        (⟨[("u", 0)], [], [⟨1, "u", 0, none, none⟩], [], [], ["c"], 2, []⟩ : BotState)
        600 noFaults).activeSessions = [] ∧
    endStudySessionRow ⟨1, "u", 0, none, none⟩ 600 ∈
      (endAllActiveSessions
        (⟨[("u", 0)], [], [⟨1, "u", 0, none, none⟩], [], [], ["c"], 2, []⟩ : BotState)
        600 noFaults).dbSessions ∧
    alookup (endAllActiveSessions
        (⟨[("u", 0)], [], [⟨1, "u", 0, none, none⟩], [], [], ["c"], 2, []⟩ : BotState)
        600 noFaults).userStats "u" = some 600000 := by
  have h := shutdown_flush
    (⟨[("u", 0)], [], [⟨1, "u", 0, none, none⟩], [], [], ["c"], 2, []⟩ : BotState)
    600 (by decide) (by decide)
    (by
      intro p hp
      have hp2 : p = ("u", (0 : Int)) := by simpa using hp
      subst hp2
      exact ⟨⟨1, "u", 0, none, none⟩, by decide⟩)
  refine ⟨h.1, ?_, ?_⟩
  · exact (h.2 ("u", 0) (by decide) ⟨1, "u", 0, none, none⟩ (by decide)).1
  · have h2 := (h.2 ("u", 0) (by decide) ⟨1, "u", 0, none, none⟩ (by decide)).2 (by decide)
    simpa [alookup] using h2

end LockIn
